import Mathlib

/-!
Shallow embedding of the adafruit-bluefruit-protocol decoder (src/lib.rs,
src/button_event.rs, src/color_event.rs, src/quaternion_event.rs,
src/accelerometer_event.rs, src/gyro_event.rs, src/magnetometer_event.rs,
src/location_event.rs).

Conventions of the embedding:
* a Rust u8 is a Nat (theorems carry explicit bounds where the value range
  matters); a Rust u16 is a Nat reduced modulo 65536 at each operation that
  can wrap;
* a Rust f32 is represented by its 32-bit IEEE-754 bit pattern as a Nat:
  the decoder never performs float arithmetic, it only reassembles the four
  little-endian bytes, so the bit pattern captures the decoded value exactly
  (bit-for-bit);
* byte slices are List Nat; Rust range indexing becomes List.take and
  List.drop;
* fallible Rust functions returning Result become Except;
* the compile-time feature selection of event kinds (cfg attributes in
  parse_command) is modelled by an explicit configuration
  enabled : ControllerDataPackageType -> Bool consulted exactly where the
  cfg-gated branches sit in the source; enabledAll is the default build in
  which every event feature is selected.
-/

namespace Bluefruit

/-- Errors raised while parsing a button event (button_event.rs). -/
inductive ButtonParseError where
  | UnknownButton (b : Nat)
  | UnknownButtonState (b : Nat)
deriving DecidableEq

/-- The eight buttons of the protocol (button_event.rs). -/
inductive Button where
  | Button1
  | Button2
  | Button3
  | Button4
  | Up
  | Down
  | Left
  | Right
deriving DecidableEq

/-- The state of a button (button_event.rs). -/
inductive ButtonState where
  | Released
  | Pressed
deriving DecidableEq

/-- A parsed button event (button_event.rs). -/
structure ButtonEvent where
  button : Button
  state : ButtonState
deriving DecidableEq

/-- A parsed color event: three raw u8 components (color_event.rs). -/
structure ColorEvent where
  red : Nat
  green : Nat
  blue : Nat
deriving DecidableEq

/-- A parsed quaternion event; each field is an f32 bit pattern
(quaternion_event.rs). -/
structure QuaternionEvent where
  x : Nat
  y : Nat
  z : Nat
  w : Nat
deriving DecidableEq

/-- A parsed accelerometer event; each field is an f32 bit pattern
(accelerometer_event.rs). -/
structure AccelerometerEvent where
  x : Nat
  y : Nat
  z : Nat
deriving DecidableEq

/-- A parsed gyro event; each field is an f32 bit pattern (gyro_event.rs). -/
structure GyroEvent where
  x : Nat
  y : Nat
  z : Nat
deriving DecidableEq

/-- A parsed magnetometer event; each field is an f32 bit pattern
(magnetometer_event.rs). -/
structure MagnetometerEvent where
  x : Nat
  y : Nat
  z : Nat
deriving DecidableEq

/-- A parsed location event; each field is an f32 bit pattern
(location_event.rs). -/
structure LocationEvent where
  latitude : Nat
  longitude : Nat
  altitude : Nat
deriving DecidableEq

/-- The internal command kinds of lib.rs (enum ControllerDataPackageType). -/
inductive ControllerDataPackageType where
  | ButtonCommand
  | Color
  | Quaternion
  | Accelerometer
  | Gyro
  | Magnetometer
  | Location
deriving DecidableEq

/-- The decoded events of lib.rs (enum ControllerEvent). -/
inductive ControllerEvent where
  | ButtonEvent (e : ButtonEvent)
  | ColorEvent (e : ColorEvent)
  | QuaternionEvent (e : QuaternionEvent)
  | AccelerometerEvent (e : AccelerometerEvent)
  | GyroEvent (e : GyroEvent)
  | MagnetometerEvent (e : MagnetometerEvent)
  | LocationEvent (e : LocationEvent)
deriving DecidableEq

/-- The error taxonomy of lib.rs (enum ProtocolParseError). -/
inductive ProtocolParseError where
  | UnknownEvent (b : Option Nat)
  | DisabledControllerDataPackageType (k : ControllerDataPackageType)
  | ButtonParseError (e : ButtonParseError)
  | InvalidLength (expected actual : Nat)
  | InvalidCrc (expected calculated : Nat)
  | InvalidFloatSize (len : Nat)
deriving DecidableEq

/-- BYTES_PER_FLOAT from lib.rs. -/
def BYTES_PER_FLOAT : Nat := 4

/-- Length of the data section of each command (ControllerDataPackageType::data_len). -/
def ControllerDataPackageType.data_len : ControllerDataPackageType → Nat
  | .ButtonCommand => 2
  | .Color => 3
  | .Quaternion => 4 * BYTES_PER_FLOAT
  | .Accelerometer => 3 * BYTES_PER_FLOAT
  | .Gyro => 3 * BYTES_PER_FLOAT
  | .Magnetometer => 3 * BYTES_PER_FLOAT
  | .Location => 3 * BYTES_PER_FLOAT

/-- Command-id byte dispatch (impl TryFrom of u8 for ControllerDataPackageType).
The byte literals are the ASCII codes of B, C, Q, A, G, M, L. -/
def ControllerDataPackageType.try_from (value : Nat) :
    Except ProtocolParseError ControllerDataPackageType :=
  if value = 66 then .ok .ButtonCommand
  else if value = 67 then .ok .Color
  else if value = 81 then .ok .Quaternion
  else if value = 65 then .ok .Accelerometer
  else if value = 71 then .ok .Gyro
  else if value = 77 then .ok .Magnetometer
  else if value = 76 then .ok .Location
  else .error (.UnknownEvent (some value))

/-- Button id dispatch (Button::from_id); byte literals are ASCII 1 to 8. -/
def Button.from_id (input : Nat) : Except ButtonParseError Button :=
  if input = 49 then .ok .Button1
  else if input = 50 then .ok .Button2
  else if input = 51 then .ok .Button3
  else if input = 52 then .ok .Button4
  else if input = 53 then .ok .Up
  else if input = 54 then .ok .Down
  else if input = 55 then .ok .Left
  else if input = 56 then .ok .Right
  else .error (.UnknownButton input)

/-- Button state dispatch (ButtonState::from_id); 48 and 49 are ASCII 0 and 1. -/
def ButtonState.from_id (input : Nat) : Except ButtonParseError ButtonState :=
  if input = 48 then .ok .Released
  else if input = 49 then .ok .Pressed
  else .error (.UnknownButtonState input)

/-- Parse the data section of a button command (impl TryFrom for ButtonEvent). -/
def ButtonEvent.try_from (input : List Nat) : Except ProtocolParseError ButtonEvent :=
  if input.length ≠ 2 then .error (.InvalidLength 2 input.length)
  else
    match Button.from_id (input.getD 0 0) with
    | .error e => .error (.ButtonParseError e)
    | .ok b =>
      match ButtonState.from_id (input.getD 1 0) with
      | .error e => .error (.ButtonParseError e)
      | .ok s => .ok ⟨b, s⟩

/-- Parse the data section of a color command (impl TryFrom for ColorEvent). -/
def ColorEvent.try_from (input : List Nat) : Except ProtocolParseError ColorEvent :=
  if input.length ≠ 3 then .error (.InvalidLength 3 input.length)
  else .ok ⟨input.getD 0 0, input.getD 1 0, input.getD 2 0⟩

/-- Decode four little-endian bytes into an f32 bit pattern
(try_f32_from_le_bytes in lib.rs): the array conversion fails exactly when
the slice length differs from 4, and f32::from_le_bytes reassembles the
bytes in little-endian order. -/
def try_f32_from_le_bytes (input : List Nat) : Except ProtocolParseError Nat :=
  match input with
  | [b0, b1, b2, b3] => .ok (b0 + 256 * b1 + 65536 * b2 + 16777216 * b3)
  | _ => .error (.InvalidFloatSize input.length)

/-- Parse the data section of a quaternion command (impl TryFrom for QuaternionEvent). -/
def QuaternionEvent.try_from (input : List Nat) : Except ProtocolParseError QuaternionEvent :=
  if input.length ≠ 4 * BYTES_PER_FLOAT then
    .error (.InvalidLength (4 * BYTES_PER_FLOAT) input.length)
  else do
    let x ← try_f32_from_le_bytes (input.take 4)
    let y ← try_f32_from_le_bytes ((input.drop 4).take 4)
    let z ← try_f32_from_le_bytes ((input.drop 8).take 4)
    let w ← try_f32_from_le_bytes ((input.drop 12).take 4)
    return ⟨x, y, z, w⟩

/-- Parse the data section of an accelerometer command (impl TryFrom for AccelerometerEvent). -/
def AccelerometerEvent.try_from (input : List Nat) :
    Except ProtocolParseError AccelerometerEvent :=
  if input.length ≠ 3 * BYTES_PER_FLOAT then
    .error (.InvalidLength (3 * BYTES_PER_FLOAT) input.length)
  else do
    let x ← try_f32_from_le_bytes (input.take 4)
    let y ← try_f32_from_le_bytes ((input.drop 4).take 4)
    let z ← try_f32_from_le_bytes ((input.drop 8).take 4)
    return ⟨x, y, z⟩

/-- Parse the data section of a gyro command (impl TryFrom for GyroEvent). -/
def GyroEvent.try_from (input : List Nat) : Except ProtocolParseError GyroEvent :=
  if input.length ≠ 3 * BYTES_PER_FLOAT then
    .error (.InvalidLength (3 * BYTES_PER_FLOAT) input.length)
  else do
    let x ← try_f32_from_le_bytes (input.take 4)
    let y ← try_f32_from_le_bytes ((input.drop 4).take 4)
    let z ← try_f32_from_le_bytes ((input.drop 8).take 4)
    return ⟨x, y, z⟩

/-- Parse the data section of a magnetometer command (impl TryFrom for MagnetometerEvent). -/
def MagnetometerEvent.try_from (input : List Nat) :
    Except ProtocolParseError MagnetometerEvent :=
  if input.length ≠ 3 * BYTES_PER_FLOAT then
    .error (.InvalidLength (3 * BYTES_PER_FLOAT) input.length)
  else do
    let x ← try_f32_from_le_bytes (input.take 4)
    let y ← try_f32_from_le_bytes ((input.drop 4).take 4)
    let z ← try_f32_from_le_bytes ((input.drop 8).take 4)
    return ⟨x, y, z⟩

/-- Parse the data section of a location command (impl TryFrom for LocationEvent). -/
def LocationEvent.try_from (input : List Nat) : Except ProtocolParseError LocationEvent :=
  if input.length ≠ 3 * BYTES_PER_FLOAT then
    .error (.InvalidLength (3 * BYTES_PER_FLOAT) input.length)
  else do
    let la ← try_f32_from_le_bytes (input.take 4)
    let lo ← try_f32_from_le_bytes ((input.drop 4).take 4)
    let al ← try_f32_from_le_bytes ((input.drop 8).take 4)
    return ⟨la, lo, al⟩

/-- Check the CRC of a command (check_crc in lib.rs): the bytes are summed
into a u16 accumulator (modelled by reducing modulo 65536 at each addition,
the u16 wraparound), the accumulator is complemented bitwise (for a u16
value s this is 65535 - s) and masked to the low byte, and the result is
compared against the received CRC byte. -/
def check_crc (data : List Nat) (crc : Nat) : Except ProtocolParseError Unit :=
  let sum := data.foldl (fun s b => (s + b) % 65536) 0
  let calculated_crc := (65535 - sum) % 256
  if crc = calculated_crc then .ok ()
  else .error (.InvalidCrc crc calculated_crc)

/-- The build in which every event feature is selected (the default features
of the crate, and the configuration exercised by its test suite). -/
def enabledAll : ControllerDataPackageType → Bool := fun _ => true

/-- Parse a previously extracted command (parse_command in lib.rs).
The slice command_input[..=data_end] becomes take (data_end + 1), the slice
command_input[data_start..=data_end] becomes drop 2 followed by
take (data_end + 1 - 2), and the cfg-gated feature branches are the
enabled test in each arm. -/
def parse_command (enabled : ControllerDataPackageType → Bool)
    (command : ControllerDataPackageType) (command_input : List Nat) :
    Except ProtocolParseError ControllerEvent :=
  let len := command_input.length
  let expected_len := command.data_len + 3
  if len ≠ expected_len then .error (.InvalidLength expected_len len)
  else
    let data_end := len - 2
    let crc := command_input.getD (len - 1) 0
    match check_crc (command_input.take (data_end + 1)) crc with
    | .error e => .error e
    | .ok _ =>
      let data := (command_input.drop 2).take (data_end + 1 - 2)
      match command with
      | .ButtonCommand =>
        if enabled .ButtonCommand then
          (ButtonEvent.try_from data).map ControllerEvent.ButtonEvent
        else .error (.DisabledControllerDataPackageType .ButtonCommand)
      | .Color =>
        if enabled .Color then
          (ColorEvent.try_from data).map ControllerEvent.ColorEvent
        else .error (.DisabledControllerDataPackageType .Color)
      | .Quaternion =>
        if enabled .Quaternion then
          (QuaternionEvent.try_from data).map ControllerEvent.QuaternionEvent
        else .error (.DisabledControllerDataPackageType .Quaternion)
      | .Accelerometer =>
        if enabled .Accelerometer then
          (AccelerometerEvent.try_from data).map ControllerEvent.AccelerometerEvent
        else .error (.DisabledControllerDataPackageType .Accelerometer)
      | .Gyro =>
        if enabled .Gyro then
          (GyroEvent.try_from data).map ControllerEvent.GyroEvent
        else .error (.DisabledControllerDataPackageType .Gyro)
      | .Magnetometer =>
        if enabled .Magnetometer then
          (MagnetometerEvent.try_from data).map ControllerEvent.MagnetometerEvent
        else .error (.DisabledControllerDataPackageType .Magnetometer)
      | .Location =>
        if enabled .Location then
          (LocationEvent.try_from data).map ControllerEvent.LocationEvent
        else .error (.DisabledControllerDataPackageType .Location)

/-- Extract a command and try to parse it (extract_and_parse_command in
lib.rs): the command id is the byte at index 1, the candidate frame is the
inclusive slice input[..=command_end] with
command_end = min (data_len + 2) (input.length - 1). -/
def extract_and_parse_command (enabled : ControllerDataPackageType → Bool)
    (input : List Nat) : Except ProtocolParseError ControllerEvent :=
  match ControllerDataPackageType.try_from (input.getD 1 0) with
  | .error e => .error e
  | .ok command =>
    let command_end := min (command.data_len + 2) (input.length - 1)
    parse_command enabled command (input.take (command_end + 1))

/-- The two states of the scanner state machine inside parse (lib.rs). -/
inductive ParserState where
  | SeekStart
  | ParseCommand
deriving DecidableEq

/-- One step per loop iteration of the for loop in parse (lib.rs): at
position pos the byte input[pos] is examined; in SeekStart a marker byte
(33, ASCII of the exclamation mark) switches the state; in ParseCommand the
suffix input[(pos - 1)..] is handed to extract_and_parse_command, its result
is pushed, and the state returns to SeekStart. The loop runs while
pos < input.length; the extra fuel argument only bounds the recursion and
equals the number of remaining iterations when called from parse. -/
def parseFrom (enabled : ControllerDataPackageType → Bool) (input : List Nat) :
    ParserState → Nat → Nat → List (Except ProtocolParseError ControllerEvent)
  | _, _, 0 => []
  | state, pos, fuel + 1 =>
    if pos < input.length then
      match state with
      | .SeekStart =>
        parseFrom enabled input
          (if input.getD pos 0 = 33 then .ParseCommand else .SeekStart) (pos + 1) fuel
      | .ParseCommand =>
        extract_and_parse_command enabled (input.drop (pos - 1)) ::
          parseFrom enabled input .SeekStart (pos + 1) fuel
    else []

/-- Parse the input for commands (parse in lib.rs, the alloc variant whose
result vector is unbounded): run the scanner from position 0 in state
SeekStart; input.length iterations always suffice. -/
def parse (enabled : ControllerDataPackageType → Bool) (input : List Nat) :
    List (Except ProtocolParseError ControllerEvent) :=
  parseFrom enabled input .SeekStart 0 input.length

/-- The byte string of the test scenario in lib.rs, written out as byte
values (0 is a null byte, 33 the marker, 66 the command id B, 49 50 51 the
ASCII digits 1 2 3, and so on). -/
def testInput : List Nat :=
  [0, 33, 66, 49, 49, 58, 33, 66, 49, 48, 59, 0, 0, 33, 0, 0, 0, 0, 33, 66, 49, 51, 56]

/-- Wire-format id byte of each command kind (inverse of the dispatch in
ControllerDataPackageType.try_from). -/
def commandId : ControllerDataPackageType → Nat
  | .ButtonCommand => 66
  | .Color => 67
  | .Quaternion => 81
  | .Accelerometer => 65
  | .Gyro => 71
  | .Magnetometer => 77
  | .Location => 76

/-- Wire-format id byte of each button (inverse of Button.from_id). -/
def Button.id : Button → Nat
  | .Button1 => 49
  | .Button2 => 50
  | .Button3 => 51
  | .Button4 => 52
  | .Up => 53
  | .Down => 54
  | .Left => 55
  | .Right => 56

/-- Wire-format id byte of each button state (inverse of ButtonState.from_id). -/
def ButtonState.id : ButtonState → Nat
  | .Released => 48
  | .Pressed => 49

/-- Little-endian four-byte encoding of a 32-bit value (the wire encoding of
an f32 bit pattern). -/
def toLE4 (n : Nat) : List Nat :=
  [n % 256, n / 256 % 256, n / 65536 % 256, n / 16777216 % 256]

/-- The command kind a given event is carried by. -/
def eventKind : ControllerEvent → ControllerDataPackageType
  | .ButtonEvent _ => .ButtonCommand
  | .ColorEvent _ => .Color
  | .QuaternionEvent _ => .Quaternion
  | .AccelerometerEvent _ => .Accelerometer
  | .GyroEvent _ => .Gyro
  | .MagnetometerEvent _ => .Magnetometer
  | .LocationEvent _ => .Location

/-- Wire-format payload of an event, per the protocol layout: button id and
state bytes, raw color bytes, or consecutive little-endian floats. -/
def eventPayload : ControllerEvent → List Nat
  | .ButtonEvent e => [e.button.id, e.state.id]
  | .ColorEvent e => [e.red, e.green, e.blue]
  | .QuaternionEvent e => toLE4 e.x ++ toLE4 e.y ++ toLE4 e.z ++ toLE4 e.w
  | .AccelerometerEvent e => toLE4 e.x ++ toLE4 e.y ++ toLE4 e.z
  | .GyroEvent e => toLE4 e.x ++ toLE4 e.y ++ toLE4 e.z
  | .MagnetometerEvent e => toLE4 e.x ++ toLE4 e.y ++ toLE4 e.z
  | .LocationEvent e => toLE4 e.latitude ++ toLE4 e.longitude ++ toLE4 e.altitude

/-- The checksum byte the protocol mandates for a frame body: bitwise
complement of the 16-bit truncated byte sum, masked to the low byte. -/
def crcOf (bytes : List Nat) : Nat := (65535 - bytes.sum % 65536) % 256

/-- A complete well-formed frame for an event: marker byte, command id,
payload, checksum. -/
def encodeFrame (e : ControllerEvent) : List Nat :=
  (33 :: commandId (eventKind e) :: eventPayload e) ++
    [crcOf (33 :: commandId (eventKind e) :: eventPayload e)]

/-- Side condition under which an event is representable on the wire: every
u8 field below 256 and every f32 bit pattern below 2 to the 32. -/
def validEvent : ControllerEvent → Prop
  | .ButtonEvent _ => True
  | .ColorEvent e => e.red < 256 ∧ e.green < 256 ∧ e.blue < 256
  | .QuaternionEvent e =>
      e.x < 4294967296 ∧ e.y < 4294967296 ∧ e.z < 4294967296 ∧ e.w < 4294967296
  | .AccelerometerEvent e => e.x < 4294967296 ∧ e.y < 4294967296 ∧ e.z < 4294967296
  | .GyroEvent e => e.x < 4294967296 ∧ e.y < 4294967296 ∧ e.z < 4294967296
  | .MagnetometerEvent e => e.x < 4294967296 ∧ e.y < 4294967296 ∧ e.z < 4294967296
  | .LocationEvent e =>
      e.latitude < 4294967296 ∧ e.longitude < 4294967296 ∧ e.altitude < 4294967296

/-!
Panic-checked model. The definitions below repeat the decoder with every
operation that can panic in Rust guarded: an index or slice out of range, a
usize subtraction underflow, and an overflow of the u16 checksum accumulator
(a panic in a debug build) each return none instead. parseChecked therefore
returns some exactly when no input-dependent panic can occur, and the
theorem for claim C10 shows it always returns some (parse enabled input).
-/

/-- Guarded indexing: input[i] panics when i is out of range. -/
def getChecked (l : List Nat) (i : Nat) : Option Nat :=
  if h : i < l.length then some (l.get ⟨i, h⟩) else none

/-- Guarded usize subtraction: a - b panics on underflow in a debug build. -/
def subChecked (a b : Nat) : Option Nat :=
  if b ≤ a then some (a - b) else none

/-- Guarded suffix slice input[a..]. -/
def sliceFrom (l : List Nat) (a : Nat) : Option (List Nat) :=
  if a ≤ l.length then some (l.drop a) else none

/-- Guarded inclusive-end slice input[..=e]. -/
def sliceToIncl (l : List Nat) (e : Nat) : Option (List Nat) :=
  if e < l.length then some (l.take (e + 1)) else none

/-- Guarded inclusive-end slice input[a..=e]. -/
def sliceIncl (l : List Nat) (a e : Nat) : Option (List Nat) :=
  if a ≤ e + 1 ∧ e < l.length then some ((l.drop a).take (e + 1 - a)) else none

/-- Guarded exclusive-end slice input[a..b]. -/
def sliceEx (l : List Nat) (a b : Nat) : Option (List Nat) :=
  if a ≤ b ∧ b ≤ l.length then some ((l.drop a).take (b - a)) else none

/-- Guarded u16 addition: sum += byte panics on overflow in a debug build. -/
def addU16Checked (s b : Nat) : Option Nat :=
  if s + b < 65536 then some (s + b) else none

/-- Panic-checked check_crc. -/
def check_crcChecked (data : List Nat) (crc : Nat) :
    Option (Except ProtocolParseError Unit) := do
  let sum ← data.foldlM addU16Checked 0
  let calculated_crc := (65535 - sum) % 256
  return (if crc = calculated_crc then .ok ()
    else .error (.InvalidCrc crc calculated_crc))

/-- Panic-checked ButtonEvent.try_from. -/
def ButtonEvent.try_fromChecked (input : List Nat) :
    Option (Except ProtocolParseError ButtonEvent) :=
  if input.length ≠ 2 then some (.error (.InvalidLength 2 input.length))
  else do
    let b0 ← getChecked input 0
    let b1 ← getChecked input 1
    return (match Button.from_id b0 with
      | .error e => .error (.ButtonParseError e)
      | .ok b =>
        match ButtonState.from_id b1 with
        | .error e => .error (.ButtonParseError e)
        | .ok s => .ok ⟨b, s⟩)

/-- Panic-checked ColorEvent.try_from. -/
def ColorEvent.try_fromChecked (input : List Nat) :
    Option (Except ProtocolParseError ColorEvent) :=
  if input.length ≠ 3 then some (.error (.InvalidLength 3 input.length))
  else do
    let r ← getChecked input 0
    let g ← getChecked input 1
    let b ← getChecked input 2
    return .ok ⟨r, g, b⟩

/-- Panic-checked QuaternionEvent.try_from. -/
def QuaternionEvent.try_fromChecked (input : List Nat) :
    Option (Except ProtocolParseError QuaternionEvent) :=
  if input.length ≠ 4 * BYTES_PER_FLOAT then
    some (.error (.InvalidLength (4 * BYTES_PER_FLOAT) input.length))
  else do
    let s1 ← sliceEx input 0 4
    let s2 ← sliceEx input 4 8
    let s3 ← sliceEx input 8 12
    let s4 ← sliceEx input 12 16
    return (try_f32_from_le_bytes s1 >>= fun x =>
      try_f32_from_le_bytes s2 >>= fun y =>
      try_f32_from_le_bytes s3 >>= fun z =>
      try_f32_from_le_bytes s4 >>= fun w =>
      pure ⟨x, y, z, w⟩)

/-- Panic-checked AccelerometerEvent.try_from. -/
def AccelerometerEvent.try_fromChecked (input : List Nat) :
    Option (Except ProtocolParseError AccelerometerEvent) :=
  if input.length ≠ 3 * BYTES_PER_FLOAT then
    some (.error (.InvalidLength (3 * BYTES_PER_FLOAT) input.length))
  else do
    let s1 ← sliceEx input 0 4
    let s2 ← sliceEx input 4 8
    let s3 ← sliceEx input 8 12
    return (try_f32_from_le_bytes s1 >>= fun x =>
      try_f32_from_le_bytes s2 >>= fun y =>
      try_f32_from_le_bytes s3 >>= fun z =>
      pure ⟨x, y, z⟩)

/-- Panic-checked GyroEvent.try_from. -/
def GyroEvent.try_fromChecked (input : List Nat) :
    Option (Except ProtocolParseError GyroEvent) :=
  if input.length ≠ 3 * BYTES_PER_FLOAT then
    some (.error (.InvalidLength (3 * BYTES_PER_FLOAT) input.length))
  else do
    let s1 ← sliceEx input 0 4
    let s2 ← sliceEx input 4 8
    let s3 ← sliceEx input 8 12
    return (try_f32_from_le_bytes s1 >>= fun x =>
      try_f32_from_le_bytes s2 >>= fun y =>
      try_f32_from_le_bytes s3 >>= fun z =>
      pure ⟨x, y, z⟩)

/-- Panic-checked MagnetometerEvent.try_from. -/
def MagnetometerEvent.try_fromChecked (input : List Nat) :
    Option (Except ProtocolParseError MagnetometerEvent) :=
  if input.length ≠ 3 * BYTES_PER_FLOAT then
    some (.error (.InvalidLength (3 * BYTES_PER_FLOAT) input.length))
  else do
    let s1 ← sliceEx input 0 4
    let s2 ← sliceEx input 4 8
    let s3 ← sliceEx input 8 12
    return (try_f32_from_le_bytes s1 >>= fun x =>
      try_f32_from_le_bytes s2 >>= fun y =>
      try_f32_from_le_bytes s3 >>= fun z =>
      pure ⟨x, y, z⟩)

/-- Panic-checked LocationEvent.try_from. -/
def LocationEvent.try_fromChecked (input : List Nat) :
    Option (Except ProtocolParseError LocationEvent) :=
  if input.length ≠ 3 * BYTES_PER_FLOAT then
    some (.error (.InvalidLength (3 * BYTES_PER_FLOAT) input.length))
  else do
    let s1 ← sliceEx input 0 4
    let s2 ← sliceEx input 4 8
    let s3 ← sliceEx input 8 12
    return (try_f32_from_le_bytes s1 >>= fun la =>
      try_f32_from_le_bytes s2 >>= fun lo =>
      try_f32_from_le_bytes s3 >>= fun al =>
      pure ⟨la, lo, al⟩)

/-- Panic-checked parse_command. -/
def parse_commandChecked (enabled : ControllerDataPackageType → Bool)
    (command : ControllerDataPackageType) (command_input : List Nat) :
    Option (Except ProtocolParseError ControllerEvent) :=
  let len := command_input.length
  let expected_len := command.data_len + 3
  if len ≠ expected_len then some (.error (.InvalidLength expected_len len))
  else do
    let data_end ← subChecked len 2
    let crcIdx ← subChecked len 1
    let crc ← getChecked command_input crcIdx
    let crcData ← sliceToIncl command_input data_end
    let crcRes ← check_crcChecked crcData crc
    match crcRes with
    | .error e => some (.error e)
    | .ok _ => do
      let data ← sliceIncl command_input 2 data_end
      match command with
      | .ButtonCommand =>
        if enabled .ButtonCommand then
          (ButtonEvent.try_fromChecked data).map (·.map ControllerEvent.ButtonEvent)
        else some (.error (.DisabledControllerDataPackageType .ButtonCommand))
      | .Color =>
        if enabled .Color then
          (ColorEvent.try_fromChecked data).map (·.map ControllerEvent.ColorEvent)
        else some (.error (.DisabledControllerDataPackageType .Color))
      | .Quaternion =>
        if enabled .Quaternion then
          (QuaternionEvent.try_fromChecked data).map (·.map ControllerEvent.QuaternionEvent)
        else some (.error (.DisabledControllerDataPackageType .Quaternion))
      | .Accelerometer =>
        if enabled .Accelerometer then
          (AccelerometerEvent.try_fromChecked data).map (·.map ControllerEvent.AccelerometerEvent)
        else some (.error (.DisabledControllerDataPackageType .Accelerometer))
      | .Gyro =>
        if enabled .Gyro then
          (GyroEvent.try_fromChecked data).map (·.map ControllerEvent.GyroEvent)
        else some (.error (.DisabledControllerDataPackageType .Gyro))
      | .Magnetometer =>
        if enabled .Magnetometer then
          (MagnetometerEvent.try_fromChecked data).map (·.map ControllerEvent.MagnetometerEvent)
        else some (.error (.DisabledControllerDataPackageType .Magnetometer))
      | .Location =>
        if enabled .Location then
          (LocationEvent.try_fromChecked data).map (·.map ControllerEvent.LocationEvent)
        else some (.error (.DisabledControllerDataPackageType .Location))

/-- Panic-checked extract_and_parse_command. -/
def extract_and_parse_commandChecked (enabled : ControllerDataPackageType → Bool)
    (input : List Nat) : Option (Except ProtocolParseError ControllerEvent) := do
  let idByte ← getChecked input 1
  match ControllerDataPackageType.try_from idByte with
  | .error e => some (.error e)
  | .ok command => do
    let lastIdx ← subChecked input.length 1
    let frame ← sliceToIncl input (min (command.data_len + 2) lastIdx)
    parse_commandChecked enabled command frame

/-- Panic-checked scanner loop. -/
def parseFromChecked (enabled : ControllerDataPackageType → Bool) (input : List Nat) :
    ParserState → Nat → Nat → Option (List (Except ProtocolParseError ControllerEvent))
  | _, _, 0 => some []
  | state, pos, fuel + 1 =>
    if pos < input.length then
      match state with
      | .SeekStart => do
        let byte ← getChecked input pos
        parseFromChecked enabled input
          (if byte = 33 then .ParseCommand else .SeekStart) (pos + 1) fuel
      | .ParseCommand => do
        let start ← subChecked pos 1
        let suffix ← sliceFrom input start
        let r ← extract_and_parse_commandChecked enabled suffix
        let rest ← parseFromChecked enabled input .SeekStart (pos + 1) fuel
        return (r :: rest)
    else some []

/-- Panic-checked parse. -/
def parseChecked (enabled : ControllerDataPackageType → Bool) (input : List Nat) :
    Option (List (Except ProtocolParseError ControllerEvent)) :=
  parseFromChecked enabled input .SeekStart 0 input.length

/-- Classifies the errors a payload decoder can produce (used to show that
the dispatch-level errors UnknownEvent and DisabledControllerDataPackageType
never originate inside a payload decoder). -/
def decoderError : ProtocolParseError → Bool
  | .ButtonParseError _ => true
  | .InvalidLength _ _ => true
  | .InvalidFloatSize _ => true
  | _ => false

/-- Folding the wrapping 16-bit addition equals the plain list sum reduced
modulo 65536. -/
lemma foldl_mod_eq (l : List Nat) : ∀ s : Nat,
    l.foldl (fun a b => (a + b) % 65536) (s % 65536) = (s + l.sum) % 65536 := by
  induction l with
  | nil => intro s; simp
  | cons b t ih =>
    intro s
    have h1 : (s % 65536 + b) % 65536 = (s + b) % 65536 := by omega
    simp only [List.foldl_cons, List.sum_cons, h1, ih (s + b)]
    omega

/-- Closed form of check_crc in terms of the plain byte sum. -/
lemma check_crc_eq (data : List Nat) (crc : Nat) :
    check_crc data crc =
      if crc = (65535 - data.sum % 65536) % 256 then .ok ()
      else .error (.InvalidCrc crc ((65535 - data.sum % 65536) % 256)) := by
  have h : data.foldl (fun a b => (a + b) % 65536) 0 = data.sum % 65536 := by
    simpa using foldl_mod_eq data 0
  simp only [check_crc, h]

/-- A frame carrying its own mandated checksum always validates. -/
lemma check_crc_self (l : List Nat) : check_crc l (crcOf l) = .ok () := by
  rw [check_crc_eq, crcOf, if_pos rfl]

/-- Every error check_crc can return is an InvalidCrc. -/
lemma check_crc_error_shape (data : List Nat) (crc : Nat) (e : ProtocolParseError)
    (h : check_crc data crc = .error e) : ∃ a b, e = ProtocolParseError.InvalidCrc a b := by
  rw [check_crc_eq] at h
  split at h
  · exact absurd h (by simp)
  · refine ⟨crc, (65535 - data.sum % 65536) % 256, ?_⟩
    injection h with h'
    exact h'.symm

/-- Replacing one element changes a Nat list sum by the difference of the
old and new element. -/
lemma sum_set_add (l : List Nat) : ∀ i : Nat, i < l.length → ∀ a : Nat,
    (l.set i a).sum + l.getD i 0 = l.sum + a := by
  induction l with
  | nil => intro i h; exact absurd h (Nat.not_lt_zero i)
  | cons x t ih =>
    intro i h a
    cases i with
    | zero => simp [List.sum_cons]; omega
    | succ i =>
      have := ih i (by simpa using h) a
      simp only [List.set, List.sum_cons, List.getD_cons_succ]
      omega

/-- Scanning from position pos + 1 of x :: l coincides with scanning from
position pos of l, provided the state does not look one byte back past the
head (in state ParseCommand the marker is at pos - 1, so pos must be at
least 1). -/
lemma parseFrom_shift (enabled : ControllerDataPackageType → Bool) (x : Nat)
    (l : List Nat) : ∀ (fuel : Nat) (st : ParserState) (pos : Nat),
    (st = ParserState.ParseCommand → 1 ≤ pos) →
    parseFrom enabled (x :: l) st (pos + 1) fuel = parseFrom enabled l st pos fuel := by
  intro fuel
  induction fuel with
  | zero => intro st pos _; rfl
  | succ fuel ih =>
    intro st pos hst
    simp only [parseFrom]
    by_cases h : pos < l.length
    · rw [if_pos (by simpa using Nat.succ_lt_succ h), if_pos h]
      cases st with
      | SeekStart =>
        rw [show (x :: l).getD (pos + 1) 0 = l.getD pos 0 from rfl]
        exact ih _ (pos + 1) (fun _ => by omega)
      | ParseCommand =>
        have hpos := hst rfl
        have hdrop : (x :: l).drop (pos + 1 - 1) = l.drop (pos - 1) := by
          rw [show pos + 1 - 1 = (pos - 1) + 1 by omega]
          rfl
        rw [hdrop]
        rw [ih .SeekStart (pos + 1) (fun _ => by omega)]
    · rw [if_neg (by simpa using h), if_neg h]

/-- Scanner step in state SeekStart: examine the byte at pos and move on. -/
lemma parseFrom_step_seek (enabled : ControllerDataPackageType → Bool)
    (input : List Nat) (pos fuel : Nat) (h : pos < input.length) :
    parseFrom enabled input .SeekStart pos (fuel + 1) =
      parseFrom enabled input
        (if input.getD pos 0 = 33 then .ParseCommand else .SeekStart) (pos + 1) fuel := by
  simp only [parseFrom, if_pos h]

/-- Scanner step in state ParseCommand: push the result for the marker seen
at pos - 1 and resume seeking at pos + 1. -/
lemma parseFrom_step_cmd (enabled : ControllerDataPackageType → Bool)
    (input : List Nat) (pos fuel : Nat) (h : pos < input.length) :
    parseFrom enabled input .ParseCommand pos (fuel + 1) =
      extract_and_parse_command enabled (input.drop (pos - 1)) ::
        parseFrom enabled input .SeekStart (pos + 1) fuel := by
  simp only [parseFrom, if_pos h]

/-- Scanner equation: a non-marker head byte is skipped. -/
lemma parse_cons_skip (enabled : ControllerDataPackageType → Bool) (b : Nat)
    (rest : List Nat) (hb : b ≠ 33) : parse enabled (b :: rest) = parse enabled rest := by
  show parseFrom enabled (b :: rest) .SeekStart 0 (rest.length + 1) = _
  rw [parseFrom_step_seek enabled (b :: rest) 0 rest.length (by simp),
    show (b :: rest).getD 0 0 = b from rfl, if_neg hb]
  exact parseFrom_shift enabled b rest rest.length .SeekStart 0
    (fun h => ParserState.noConfusion h)

/-- Scanner equation: a marker as the very last byte produces nothing (the
loop ends while the state machine is still in ParseCommand). -/
lemma parse_marker_end (enabled : ControllerDataPackageType → Bool) :
    parse enabled [33] = [] := rfl

/-- Scanner equation: a marker with at least one byte after it produces the
result of extract_and_parse_command on the suffix beginning at the marker
and the scan resumes two positions later, just past the command-id byte. -/
lemma parse_cons_marker (enabled : ControllerDataPackageType → Bool) (c : Nat)
    (rest : List Nat) :
    parse enabled (33 :: c :: rest) =
      extract_and_parse_command enabled (33 :: c :: rest) :: parse enabled rest := by
  show parseFrom enabled (33 :: c :: rest) .SeekStart 0 (rest.length + 1 + 1) = _
  rw [parseFrom_step_seek enabled (33 :: c :: rest) 0 (rest.length + 1) (by simp),
    show (33 :: c :: rest).getD 0 0 = 33 from rfl, if_pos rfl]
  rw [parseFrom_step_cmd enabled (33 :: c :: rest) 1 rest.length
    (by simp only [List.length_cons]; omega)]
  rw [show (33 :: c :: rest).drop (1 - 1) = 33 :: c :: rest from rfl]
  congr 1
  rw [show (1 : Nat) + 1 = 1 + 1 from rfl]
  rw [parseFrom_shift enabled 33 (c :: rest) rest.length .SeekStart 1 (fun _ => le_refl 1)]
  rw [parseFrom_shift enabled c rest rest.length .SeekStart 0
    (fun h => ParserState.noConfusion h)]
  rfl

/-- Every error of the command-id dispatch is UnknownEvent of the offending
byte. -/
lemma try_from_error_shape (v : Nat) (e : ProtocolParseError)
    (h : ControllerDataPackageType.try_from v = .error e) :
    e = .UnknownEvent (some v) := by
  unfold ControllerDataPackageType.try_from at h
  split_ifs at h
  all_goals simp_all

/-- Every error of the float decoder is classified as a decoder error. -/
lemma try_f32_error_shape (l : List Nat) (e : ProtocolParseError)
    (h : try_f32_from_le_bytes l = .error e) : decoderError e = true := by
  unfold try_f32_from_le_bytes at h
  split at h
  · exact Except.noConfusion h
  · injection h with h
    exact h ▸ rfl

/-- Transport of an error classification through Except bind. -/
lemma bind_error_shape {α β : Type} (p : ProtocolParseError → Prop)
    (x : Except ProtocolParseError α) (f : α → Except ProtocolParseError β)
    (hx : ∀ e, x = .error e → p e) (hf : ∀ a e, f a = .error e → p e) :
    ∀ e, x >>= f = .error e → p e := by
  intro e h
  cases x with
  | error e2 =>
    have hx2 := hx e2 rfl
    have : Except.error (α := α) e2 >>= f = Except.error e2 := rfl
    rw [this] at h
    injection h with h
    exact h ▸ hx2
  | ok a => exact hf a e h

/-- Every error of the button-payload decoder is classified as a decoder
error. -/
lemma button_error_shape (l : List Nat) (e : ProtocolParseError)
    (h : ButtonEvent.try_from l = .error e) : decoderError e = true := by
  unfold ButtonEvent.try_from at h
  split at h
  · injection h with h
    exact h ▸ rfl
  · split at h
    · injection h with h
      exact h ▸ rfl
    · split at h
      · injection h with h
        exact h ▸ rfl
      · exact Except.noConfusion h

/-- Every error of the color-payload decoder is classified as a decoder
error. -/
lemma color_error_shape (l : List Nat) (e : ProtocolParseError)
    (h : ColorEvent.try_from l = .error e) : decoderError e = true := by
  unfold ColorEvent.try_from at h
  split at h
  · injection h with h
    exact h ▸ rfl
  · exact Except.noConfusion h

/-- Every error of the quaternion-payload decoder is classified as a decoder
error. -/
lemma quaternion_error_shape (l : List Nat) (e : ProtocolParseError)
    (h : QuaternionEvent.try_from l = .error e) : decoderError e = true := by
  unfold QuaternionEvent.try_from at h
  split at h
  · injection h with h
    exact h ▸ rfl
  · revert h
    refine bind_error_shape _ _ _ (try_f32_error_shape _) (fun x => ?_) e
    refine bind_error_shape _ _ _ (try_f32_error_shape _) (fun y => ?_)
    refine bind_error_shape _ _ _ (try_f32_error_shape _) (fun z => ?_)
    refine bind_error_shape _ _ _ (try_f32_error_shape _) (fun w e2 h2 => ?_)
    simp [pure, Except.pure] at h2

/-- Every error of the accelerometer-payload decoder is classified as a
decoder error. -/
lemma accelerometer_error_shape (l : List Nat) (e : ProtocolParseError)
    (h : AccelerometerEvent.try_from l = .error e) : decoderError e = true := by
  unfold AccelerometerEvent.try_from at h
  split at h
  · injection h with h
    exact h ▸ rfl
  · revert h
    refine bind_error_shape _ _ _ (try_f32_error_shape _) (fun x => ?_) e
    refine bind_error_shape _ _ _ (try_f32_error_shape _) (fun y => ?_)
    refine bind_error_shape _ _ _ (try_f32_error_shape _) (fun z e2 h2 => ?_)
    simp [pure, Except.pure] at h2

/-- Every error of the gyro-payload decoder is classified as a decoder
error. -/
lemma gyro_error_shape (l : List Nat) (e : ProtocolParseError)
    (h : GyroEvent.try_from l = .error e) : decoderError e = true := by
  unfold GyroEvent.try_from at h
  split at h
  · injection h with h
    exact h ▸ rfl
  · revert h
    refine bind_error_shape _ _ _ (try_f32_error_shape _) (fun x => ?_) e
    refine bind_error_shape _ _ _ (try_f32_error_shape _) (fun y => ?_)
    refine bind_error_shape _ _ _ (try_f32_error_shape _) (fun z e2 h2 => ?_)
    simp [pure, Except.pure] at h2

/-- Every error of the magnetometer-payload decoder is classified as a
decoder error. -/
lemma magnetometer_error_shape (l : List Nat) (e : ProtocolParseError)
    (h : MagnetometerEvent.try_from l = .error e) : decoderError e = true := by
  unfold MagnetometerEvent.try_from at h
  split at h
  · injection h with h
    exact h ▸ rfl
  · revert h
    refine bind_error_shape _ _ _ (try_f32_error_shape _) (fun x => ?_) e
    refine bind_error_shape _ _ _ (try_f32_error_shape _) (fun y => ?_)
    refine bind_error_shape _ _ _ (try_f32_error_shape _) (fun z e2 h2 => ?_)
    simp [pure, Except.pure] at h2

/-- Every error of the location-payload decoder is classified as a decoder
error. -/
lemma location_error_shape (l : List Nat) (e : ProtocolParseError)
    (h : LocationEvent.try_from l = .error e) : decoderError e = true := by
  unfold LocationEvent.try_from at h
  split at h
  · injection h with h
    exact h ▸ rfl
  · revert h
    refine bind_error_shape _ _ _ (try_f32_error_shape _) (fun la => ?_) e
    refine bind_error_shape _ _ _ (try_f32_error_shape _) (fun lo => ?_)
    refine bind_error_shape _ _ _ (try_f32_error_shape _) (fun al e2 h2 => ?_)
    simp [pure, Except.pure] at h2

/-- An error coming out of Except.map was already in the mapped value. -/
lemma map_error_shape {α β : Type} (x : Except ProtocolParseError α)
    (f : α → β) (e : ProtocolParseError) (h : x.map f = .error e) :
    x = .error e := by
  cases x with
  | error e2 => simpa [Except.map] using h
  | ok a => simp [Except.map] at h

/-- Full characterization of every error parse_command can return, together
with the validation stage it was produced at: a length mismatch reports
InvalidLength before anything else; a checksum failure reports InvalidCrc
and presupposes the length matched; the disabled-kind report and the payload
decoder errors presuppose both the length and the checksum checks passed. -/
lemma parse_command_error_cases (enabled : ControllerDataPackageType → Bool)
    (cmd : ControllerDataPackageType) (input : List Nat) (e : ProtocolParseError)
    (h : parse_command enabled cmd input = .error e) :
    (e = .InvalidLength (cmd.data_len + 3) input.length
      ∧ input.length ≠ cmd.data_len + 3)
    ∨ ((∃ a b, e = .InvalidCrc a b) ∧ input.length = cmd.data_len + 3
        ∧ check_crc (input.take (input.length - 1)) (input.getD (input.length - 1) 0)
            = .error e)
    ∨ (e = .DisabledControllerDataPackageType cmd ∧ enabled cmd = false
        ∧ input.length = cmd.data_len + 3
        ∧ check_crc (input.take (input.length - 1)) (input.getD (input.length - 1) 0)
            = .ok ())
    ∨ (decoderError e = true ∧ input.length = cmd.data_len + 3
        ∧ check_crc (input.take (input.length - 1)) (input.getD (input.length - 1) 0)
            = .ok ()) := by
  have hlen2 : 2 ≤ cmd.data_len := by
    cases cmd <;> simp [ControllerDataPackageType.data_len, BYTES_PER_FLOAT]
  simp only [parse_command] at h
  split at h
  · left
    rename_i hne
    injection h with h
    constructor
    · exact h.symm
    · exact hne
  · right
    rename_i hne
    have hlen : input.length = cmd.data_len + 3 := by omega
    have htake : input.length - 2 + 1 = input.length - 1 := by omega
    rw [htake] at h
    split at h
    · left
      rename_i e2 hcrc
      injection h with h
      subst h
      exact ⟨check_crc_error_shape _ _ _ hcrc, hlen, hcrc⟩
    · right
      rename_i u hcrc
      have hcrcok : check_crc (input.take (input.length - 1))
          (input.getD (input.length - 1) 0) = .ok () := by
        cases u
        exact hcrc
      split at h <;> split at h
      case _ =>
        right
        refine ⟨?_, hlen, hcrcok⟩
        exact button_error_shape _ _ (map_error_shape _ _ _ h)
      case _ =>
        left
        injection h with h
        exact ⟨h.symm, by simp_all, hlen, hcrcok⟩
      case _ =>
        right
        refine ⟨?_, hlen, hcrcok⟩
        exact color_error_shape _ _ (map_error_shape _ _ _ h)
      case _ =>
        left
        injection h with h
        exact ⟨h.symm, by simp_all, hlen, hcrcok⟩
      case _ =>
        right
        refine ⟨?_, hlen, hcrcok⟩
        exact quaternion_error_shape _ _ (map_error_shape _ _ _ h)
      case _ =>
        left
        injection h with h
        exact ⟨h.symm, by simp_all, hlen, hcrcok⟩
      case _ =>
        right
        refine ⟨?_, hlen, hcrcok⟩
        exact accelerometer_error_shape _ _ (map_error_shape _ _ _ h)
      case _ =>
        left
        injection h with h
        exact ⟨h.symm, by simp_all, hlen, hcrcok⟩
      case _ =>
        right
        refine ⟨?_, hlen, hcrcok⟩
        exact gyro_error_shape _ _ (map_error_shape _ _ _ h)
      case _ =>
        left
        injection h with h
        exact ⟨h.symm, by simp_all, hlen, hcrcok⟩
      case _ =>
        right
        refine ⟨?_, hlen, hcrcok⟩
        exact magnetometer_error_shape _ _ (map_error_shape _ _ _ h)
      case _ =>
        left
        injection h with h
        exact ⟨h.symm, by simp_all, hlen, hcrcok⟩
      case _ =>
        right
        refine ⟨?_, hlen, hcrcok⟩
        exact location_error_shape _ _ (map_error_shape _ _ _ h)
      case _ =>
        left
        injection h with h
        exact ⟨h.symm, by simp_all, hlen, hcrcok⟩

/-- parse_command never reports an unknown event: that error belongs to the
command-id dispatch which runs before parse_command is called. -/
lemma parse_command_not_unknown (enabled : ControllerDataPackageType → Bool)
    (cmd : ControllerDataPackageType) (input : List Nat) (o : Option Nat) :
    parse_command enabled cmd input ≠ .error (.UnknownEvent o) := by
  intro h
  rcases parse_command_error_cases enabled cmd input _ h with
    ⟨h1, _⟩ | ⟨⟨a, b, h1⟩, _⟩ | ⟨h1, _⟩ | ⟨h1, _⟩ <;> simp [decoderError] at h1

/-- extract_and_parse_command never reports UnknownEvent none: its only
UnknownEvent error carries the offending command-id byte. -/
lemma extract_not_unknown_none (enabled : ControllerDataPackageType → Bool)
    (input : List Nat) :
    extract_and_parse_command enabled input ≠ .error (.UnknownEvent none) := by
  unfold extract_and_parse_command
  split
  · rename_i e heq
    have := try_from_error_shape _ _ heq
    subst this
    simp
  · exact parse_command_not_unknown _ _ _ _

/-- No result the scanner ever yields is UnknownEvent none. -/
lemma parseFrom_not_unknown_none (enabled : ControllerDataPackageType → Bool)
    (input : List Nat) : ∀ (fuel : Nat) (st : ParserState) (pos : Nat),
    Except.error (ProtocolParseError.UnknownEvent none) ∉
      parseFrom enabled input st pos fuel := by
  intro fuel
  induction fuel with
  | zero => intro st pos h; exact absurd h (List.not_mem_nil _)
  | succ fuel ih =>
    intro st pos h
    simp only [parseFrom] at h
    split at h
    · cases st with
      | SeekStart => exact ih _ _ h
      | ParseCommand =>
        rcases List.mem_cons.mp h with h1 | h2
        · exact extract_not_unknown_none enabled _ h1.symm
        · exact ih _ _ h2
    · exact absurd h (List.not_mem_nil _)

/-- The little-endian four-byte encoding has length four. -/
lemma toLE4_length (n : Nat) : (toLE4 n).length = 4 := rfl

/-- Taking four bytes off a four-byte prefix returns the prefix. -/
lemma take4_append (l1 l2 : List Nat) (h : l1.length = 4) : (l1 ++ l2).take 4 = l1 := by
  rw [← h]
  exact List.take_left l1 l2

/-- Dropping four bytes off a four-byte prefix returns the rest. -/
lemma drop4_append (l1 l2 : List Nat) (h : l1.length = 4) : (l1 ++ l2).drop 4 = l2 := by
  rw [← h]
  exact List.drop_left l1 l2

/-- Decoding the little-endian encoding of a 32-bit value recovers the
value. -/
lemma try_f32_toLE4 (n : Nat) (h : n < 4294967296) :
    try_f32_from_le_bytes (toLE4 n) = .ok n := by
  simp only [toLE4, try_f32_from_le_bytes]
  have : n % 256 + 256 * (n / 256 % 256) + 65536 * (n / 65536 % 256)
      + 16777216 * (n / 16777216 % 256) = n := by omega
  rw [this]

/-- Decoding three concatenated little-endian floats recovers all three
values (shared by the accelerometer, gyro, magnetometer and location
decoders, which all read slices 0..4, 4..8 and 8..12). -/
lemma slices3 (a b c : Nat) :
    (toLE4 a ++ toLE4 b ++ toLE4 c).take 4 = toLE4 a
    ∧ ((toLE4 a ++ toLE4 b ++ toLE4 c).drop 4).take 4 = toLE4 b
    ∧ ((toLE4 a ++ toLE4 b ++ toLE4 c).drop 8).take 4 = toLE4 c
    ∧ (toLE4 a ++ toLE4 b ++ toLE4 c).length = 12 := by
  rw [List.append_assoc]
  refine ⟨take4_append _ _ (toLE4_length a), ?_, ?_, by simp [toLE4]⟩
  · rw [drop4_append _ _ (toLE4_length a)]
    exact take4_append _ _ (toLE4_length b)
  · rw [show (8 : Nat) = 4 + 4 from rfl, ← List.drop_drop,
      drop4_append _ _ (toLE4_length a), drop4_append _ _ (toLE4_length b)]
    simp [toLE4]

/-- Decoding four concatenated little-endian floats: the slices the
quaternion decoder reads. -/
lemma slices4 (a b c d : Nat) :
    (toLE4 a ++ toLE4 b ++ toLE4 c ++ toLE4 d).take 4 = toLE4 a
    ∧ ((toLE4 a ++ toLE4 b ++ toLE4 c ++ toLE4 d).drop 4).take 4 = toLE4 b
    ∧ ((toLE4 a ++ toLE4 b ++ toLE4 c ++ toLE4 d).drop 8).take 4 = toLE4 c
    ∧ ((toLE4 a ++ toLE4 b ++ toLE4 c ++ toLE4 d).drop 12).take 4 = toLE4 d
    ∧ (toLE4 a ++ toLE4 b ++ toLE4 c ++ toLE4 d).length = 16 := by
  rw [List.append_assoc, List.append_assoc]
  have d4 : ∀ x (l : List Nat), (toLE4 x ++ l).drop 4 = l :=
    fun x l => drop4_append _ _ (toLE4_length x)
  refine ⟨take4_append _ _ (toLE4_length a), ?_, ?_, ?_, by simp [toLE4]⟩
  · rw [d4 a]
    exact take4_append _ _ (toLE4_length b)
  · rw [show (8 : Nat) = 4 + 4 from rfl, ← List.drop_drop, d4 a, d4 b]
    exact take4_append _ _ (toLE4_length c)
  · rw [show (12 : Nat) = 4 + 8 from rfl, ← List.drop_drop, d4 a,
      show (8 : Nat) = 4 + 4 from rfl, ← List.drop_drop, d4 b, d4 c]
    simp [toLE4]

/-- The location decoder inverts the three-float encoding. -/
lemma location_decode (a b c : Nat) (ha : a < 4294967296) (hb : b < 4294967296)
    (hc : c < 4294967296) :
    LocationEvent.try_from (toLE4 a ++ toLE4 b ++ toLE4 c) = .ok ⟨a, b, c⟩ := by
  obtain ⟨s1, s2, s3, slen⟩ := slices3 a b c
  unfold LocationEvent.try_from
  rw [if_neg (by rw [slen]; simp [BYTES_PER_FLOAT]), s1, s2, s3,
    try_f32_toLE4 a ha, try_f32_toLE4 b hb, try_f32_toLE4 c hc]
  rfl

/-- The accelerometer decoder inverts the three-float encoding. -/
lemma accelerometer_decode (a b c : Nat) (ha : a < 4294967296) (hb : b < 4294967296)
    (hc : c < 4294967296) :
    AccelerometerEvent.try_from (toLE4 a ++ toLE4 b ++ toLE4 c) = .ok ⟨a, b, c⟩ := by
  obtain ⟨s1, s2, s3, slen⟩ := slices3 a b c
  unfold AccelerometerEvent.try_from
  rw [if_neg (by rw [slen]; simp [BYTES_PER_FLOAT]), s1, s2, s3,
    try_f32_toLE4 a ha, try_f32_toLE4 b hb, try_f32_toLE4 c hc]
  rfl

/-- The gyro decoder inverts the three-float encoding. -/
lemma gyro_decode (a b c : Nat) (ha : a < 4294967296) (hb : b < 4294967296)
    (hc : c < 4294967296) :
    GyroEvent.try_from (toLE4 a ++ toLE4 b ++ toLE4 c) = .ok ⟨a, b, c⟩ := by
  obtain ⟨s1, s2, s3, slen⟩ := slices3 a b c
  unfold GyroEvent.try_from
  rw [if_neg (by rw [slen]; simp [BYTES_PER_FLOAT]), s1, s2, s3,
    try_f32_toLE4 a ha, try_f32_toLE4 b hb, try_f32_toLE4 c hc]
  rfl

/-- The magnetometer decoder inverts the three-float encoding. -/
lemma magnetometer_decode (a b c : Nat) (ha : a < 4294967296) (hb : b < 4294967296)
    (hc : c < 4294967296) :
    MagnetometerEvent.try_from (toLE4 a ++ toLE4 b ++ toLE4 c) = .ok ⟨a, b, c⟩ := by
  obtain ⟨s1, s2, s3, slen⟩ := slices3 a b c
  unfold MagnetometerEvent.try_from
  rw [if_neg (by rw [slen]; simp [BYTES_PER_FLOAT]), s1, s2, s3,
    try_f32_toLE4 a ha, try_f32_toLE4 b hb, try_f32_toLE4 c hc]
  rfl

/-- The quaternion decoder inverts the four-float encoding. -/
lemma quaternion_decode (a b c d : Nat) (ha : a < 4294967296) (hb : b < 4294967296)
    (hc : c < 4294967296) (hd : d < 4294967296) :
    QuaternionEvent.try_from (toLE4 a ++ toLE4 b ++ toLE4 c ++ toLE4 d)
      = .ok ⟨a, b, c, d⟩ := by
  obtain ⟨s1, s2, s3, s4, slen⟩ := slices4 a b c d
  unfold QuaternionEvent.try_from
  rw [if_neg (by rw [slen]; simp [BYTES_PER_FLOAT]), s1, s2, s3, s4,
    try_f32_toLE4 a ha, try_f32_toLE4 b hb, try_f32_toLE4 c hc, try_f32_toLE4 d hd]
  rfl

/-- The element at the checksum position of an encoded frame is the
checksum. -/
lemma getD_append_len (l : List Nat) (a d : Nat) : (l ++ [a]).getD l.length d = a := by
  induction l with
  | nil => rfl
  | cons x t ih => simp [ih]

/-- parse_command on a well-formed frame of the right payload length always
reaches the dispatch stage: the length check passes, the checksum validates,
and the payload slice handed to the decoder is exactly the encoded
payload. -/
lemma parse_command_frame (enabled : ControllerDataPackageType → Bool)
    (cmd : ControllerDataPackageType) (payload : List Nat)
    (h : payload.length = cmd.data_len) :
    parse_command enabled cmd
        ((33 :: commandId cmd :: payload) ++ [crcOf (33 :: commandId cmd :: payload)]) =
      if enabled cmd then
        match cmd with
        | .ButtonCommand => (ButtonEvent.try_from payload).map ControllerEvent.ButtonEvent
        | .Color => (ColorEvent.try_from payload).map ControllerEvent.ColorEvent
        | .Quaternion => (QuaternionEvent.try_from payload).map ControllerEvent.QuaternionEvent
        | .Accelerometer =>
            (AccelerometerEvent.try_from payload).map ControllerEvent.AccelerometerEvent
        | .Gyro => (GyroEvent.try_from payload).map ControllerEvent.GyroEvent
        | .Magnetometer =>
            (MagnetometerEvent.try_from payload).map ControllerEvent.MagnetometerEvent
        | .Location => (LocationEvent.try_from payload).map ControllerEvent.LocationEvent
      else .error (.DisabledControllerDataPackageType cmd) := by
  have hbody : (33 :: commandId cmd :: payload).length = cmd.data_len + 2 := by
    simp [h]
  have hflen : ((33 :: commandId cmd :: payload)
      ++ [crcOf (33 :: commandId cmd :: payload)]).length = cmd.data_len + 3 := by
    simp [h]
  simp only [parse_command, hflen]
  rw [if_neg (by omega)]
  rw [show cmd.data_len + 3 - 2 + 1 = cmd.data_len + 2 from by omega]
  rw [show cmd.data_len + 3 - 1 = cmd.data_len + 2 from by omega]
  rw [show ((33 :: commandId cmd :: payload)
      ++ [crcOf (33 :: commandId cmd :: payload)]).getD (cmd.data_len + 2) 0
    = crcOf (33 :: commandId cmd :: payload) from by rw [← hbody]; exact getD_append_len _ _ _]
  rw [show ((33 :: commandId cmd :: payload)
      ++ [crcOf (33 :: commandId cmd :: payload)]).take (cmd.data_len + 2)
    = 33 :: commandId cmd :: payload from by rw [← hbody]; exact List.take_left _ _]
  rw [check_crc_self]
  rw [show cmd.data_len + 2 - 2 = cmd.data_len from by omega]
  rw [show (((33 :: commandId cmd :: payload)
      ++ [crcOf (33 :: commandId cmd :: payload)]).drop 2)
    = payload ++ [crcOf (33 :: commandId cmd :: payload)] from rfl]
  rw [show (payload ++ [crcOf (33 :: commandId cmd :: payload)]).take cmd.data_len
    = payload from by rw [← h]; exact List.take_left _ _]
  cases cmd <;> rfl

/-- The wire id of each button decodes back to that button. -/
lemma button_from_id_id (b : Button) : Button.from_id b.id = .ok b := by
  cases b <;> rfl

/-- The wire id of each button state decodes back to that state. -/
lemma state_from_id_id (s : ButtonState) : ButtonState.from_id s.id = .ok s := by
  cases s <;> rfl

/-- C1, counterexample. The spec predicts that a buffer whose last byte is
the marker with nothing after it yields Err(UnknownEvent(None)) for that
trailing marker; on the two-byte buffer of a null byte followed by the
marker the code yields no result at all. -/
theorem C1_counterexample :
    parse enabledAll [0, 33] = []
    ∧ Except.error (ProtocolParseError.UnknownEvent none) ∉ parse enabledAll [0, 33] := by
  constructor
  · rfl
  · rw [show parse enabledAll [0, 33] = [] from rfl]
    exact List.not_mem_nil _

/-- C1, amended. A trailing marker with no command-id byte after it yields
no result at all (the scanner loop ends while still in the ParseCommand
state and pushes nothing), and no parse result on any input in any build
configuration is ever Err(UnknownEvent(None)): the only UnknownEvent error
the code constructs carries Some of the offending command-id byte. -/
theorem C1_no_unknown_none :
    (∀ (enabled : ControllerDataPackageType → Bool) (input : List Nat),
      Except.error (ProtocolParseError.UnknownEvent none) ∉ parse enabled input)
    ∧ parse enabledAll [33] = [] := by
  constructor
  · intro enabled input
    exact parseFrom_not_unknown_none enabled input input.length .SeekStart 0
  · rfl

/-- C2, counterexample. The byte-string literal of the scenario has 23
bytes, not 24 as the claim states. -/
theorem C2_counterexample : testInput.length = 23 ∧ testInput.length ≠ 24 := by
  constructor
  · rfl
  · decide

/-- C2, amended to the actual byte count. Parsing the exact 23-byte scenario
input yields exactly four results in order: button 1 pressed, button 1
released, unknown event of the null command-id byte, and the button decode
error for the unknown state byte of ASCII digit 3. -/
theorem C2_scenario :
    parse enabledAll testInput =
      [.ok (.ButtonEvent ⟨.Button1, .Pressed⟩),
       .ok (.ButtonEvent ⟨.Button1, .Released⟩),
       .error (.UnknownEvent (some 0)),
       .error (.ButtonParseError (.UnknownButtonState 51))]
    ∧ testInput.length = 23 := by
  constructor
  · rfl
  · rfl

/-- C3. The frame validator sums the bytes of the checksummed region in a
16-bit accumulator, takes the bitwise complement masked to the low byte, and
succeeds exactly when the received checksum byte equals that value; on a
mismatch it returns InvalidChecksum carrying the received byte first and the
calculated value second. -/
theorem C3_check_crc_contract (d : List Nat) (c : Nat)
    (_hd : ∀ b ∈ d, b < 256) (_hc : c < 256) :
    ((check_crc d c = .ok ()) ↔ c = (65535 - d.sum % 65536) % 256)
    ∧ (c ≠ (65535 - d.sum % 65536) % 256 →
        check_crc d c = .error (.InvalidCrc c ((65535 - d.sum % 65536) % 256))) := by
  constructor
  · rw [check_crc_eq]
    constructor
    · intro h
      by_contra hne
      rw [if_neg hne] at h
      exact Except.noConfusion h
    · intro h
      rw [if_pos h]
  · intro hne
    rw [check_crc_eq, if_neg hne]

/-- C3, witness at the frame body of the checksum test of the crate. -/
theorem C3_witness :
    ((check_crc [33, 66, 49, 49] 58 = .ok ())
      ↔ 58 = (65535 - ([33, 66, 49, 49] : List Nat).sum % 65536) % 256)
    ∧ (58 ≠ (65535 - ([33, 66, 49, 49] : List Nat).sum % 65536) % 256 →
        check_crc [33, 66, 49, 49] 58
          = .error (.InvalidCrc 58 ((65535 - ([33, 66, 49, 49] : List Nat).sum % 65536) % 256))) :=
  C3_check_crc_contract [33, 66, 49, 49] 58 (by decide) (by decide)

/-- C4. Validation order in parse_command: a frame whose length differs from
marker + command + payload + checksum reports InvalidLength regardless of
everything else; when the length matches, a checksum failure is propagated
as the result; and a DisabledEventKind report can only arise with the length
correct, the checksum valid, and the kind disabled in the build. -/
theorem C4_validation_order (enabled : ControllerDataPackageType → Bool)
    (cmd : ControllerDataPackageType) (input : List Nat) :
    (input.length ≠ cmd.data_len + 3 →
      parse_command enabled cmd input
        = .error (.InvalidLength (cmd.data_len + 3) input.length))
    ∧ (∀ e, input.length = cmd.data_len + 3 →
        check_crc (input.take (input.length - 1)) (input.getD (input.length - 1) 0)
            = .error e →
        parse_command enabled cmd input = .error e)
    ∧ (∀ k, parse_command enabled cmd input
          = .error (.DisabledControllerDataPackageType k) →
        k = cmd ∧ input.length = cmd.data_len + 3
        ∧ check_crc (input.take (input.length - 1)) (input.getD (input.length - 1) 0)
            = .ok ()
        ∧ enabled cmd = false) := by
  refine ⟨?_, ?_, ?_⟩
  · intro h
    simp only [parse_command]
    rw [if_pos h]
  · intro e hlen hcrc
    simp only [parse_command]
    rw [if_neg (by omega)]
    rw [show input.length - 2 + 1 = input.length - 1 from by
      have : 2 ≤ cmd.data_len := by
        cases cmd <;> simp [ControllerDataPackageType.data_len, BYTES_PER_FLOAT]
      omega]
    rw [hcrc]
  · intro k h
    rcases parse_command_error_cases enabled cmd input _ h with
      ⟨h1, _⟩ | ⟨⟨a, b, h1⟩, _⟩ | ⟨h1, h2, h3, h4⟩ | ⟨h1, _⟩
    · exact absurd h1 (by simp)
    · exact absurd h1 (by simp)
    · injection h1 with h1
      exact ⟨h1, h3, h4, h2⟩
    · simp [decoderError] at h1

/-- C4, witness: a short button frame reports InvalidLength 5 3; a
right-length button frame with a corrupted checksum byte reports
InvalidCrc 59 58; and in a build with every kind disabled a valid button
frame reports the disabled kind, which by the theorem presupposes length
and checksum both valid. -/
theorem C4_witness :
    parse_command enabledAll .ButtonCommand [33, 66, 49]
      = .error (.InvalidLength 5 3)
    ∧ parse_command enabledAll .ButtonCommand [33, 66, 49, 49, 59]
      = .error (.InvalidCrc 59 58)
    ∧ (ControllerDataPackageType.ButtonCommand = ControllerDataPackageType.ButtonCommand
        ∧ ([33, 66, 49, 49, 58] : List Nat).length
            = ControllerDataPackageType.ButtonCommand.data_len + 3
        ∧ check_crc (([33, 66, 49, 49, 58] : List Nat).take
              (([33, 66, 49, 49, 58] : List Nat).length - 1))
            (([33, 66, 49, 49, 58] : List Nat).getD
              (([33, 66, 49, 49, 58] : List Nat).length - 1) 0) = .ok ()
        ∧ (fun _ => false : ControllerDataPackageType → Bool) .ButtonCommand = false) :=
  ⟨(C4_validation_order enabledAll .ButtonCommand [33, 66, 49]).1 (by decide),
   (C4_validation_order enabledAll .ButtonCommand [33, 66, 49, 49, 59]).2.1
     (.InvalidCrc 59 58) (by decide) (by rfl),
   (C4_validation_order (fun _ => false) .ButtonCommand [33, 66, 49, 49, 58]).2.2
     .ButtonCommand (by rfl)⟩

/-- C5. When the byte after a marker is a recognized command id, the
candidate frame handed to parse_command is a prefix of the remaining buffer
of end-exclusive length min (1 + 1 + payload length + 1) (bytes remaining),
so extraction never reads past the end of the buffer. -/
theorem C5_extraction_bounds (enabled : ControllerDataPackageType → Bool)
    (input : List Nat) (cmd : ControllerDataPackageType)
    (h2 : 2 ≤ input.length)
    (hcmd : ControllerDataPackageType.try_from (input.getD 1 0) = .ok cmd) :
    extract_and_parse_command enabled input
      = parse_command enabled cmd (input.take (min (cmd.data_len + 3) input.length))
    ∧ (input.take (min (cmd.data_len + 3) input.length)).length
        = min (cmd.data_len + 3) input.length
    ∧ min (cmd.data_len + 3) input.length ≤ input.length := by
  refine ⟨?_, ?_, by omega⟩
  · simp only [extract_and_parse_command, hcmd]
    rw [show min (cmd.data_len + 2) (input.length - 1) + 1
      = min (cmd.data_len + 3) input.length from by omega]
  · rw [List.length_take]
    omega

/-- C5, witness at a short buffer: the nine bytes left in the buffer cannot
hold the 19-byte quaternion frame, so the candidate frame is the whole
remaining buffer. -/
theorem C5_witness :
    extract_and_parse_command enabledAll [33, 81, 0, 0, 0, 0, 0, 0, 0]
      = parse_command enabledAll .Quaternion
          (([33, 81, 0, 0, 0, 0, 0, 0, 0] : List Nat).take
            (min (ControllerDataPackageType.Quaternion.data_len + 3)
              ([33, 81, 0, 0, 0, 0, 0, 0, 0] : List Nat).length))
    ∧ (([33, 81, 0, 0, 0, 0, 0, 0, 0] : List Nat).take
          (min (ControllerDataPackageType.Quaternion.data_len + 3)
            ([33, 81, 0, 0, 0, 0, 0, 0, 0] : List Nat).length)).length
        = min (ControllerDataPackageType.Quaternion.data_len + 3)
            ([33, 81, 0, 0, 0, 0, 0, 0, 0] : List Nat).length
    ∧ min (ControllerDataPackageType.Quaternion.data_len + 3)
          ([33, 81, 0, 0, 0, 0, 0, 0, 0] : List Nat).length
        ≤ ([33, 81, 0, 0, 0, 0, 0, 0, 0] : List Nat).length :=
  C5_extraction_bounds enabledAll [33, 81, 0, 0, 0, 0, 0, 0, 0] .Quaternion
    (by decide) (by rfl)

/-- C6. Encoding any event of any kind as a well-formed frame (marker,
command id, fixed-length payload with little-endian floats, correct
checksum) and decoding it with all kinds enabled yields Ok of exactly the
encoded field values; float fields are bit patterns, so the equality is
bit-for-bit. -/
theorem C6_roundtrip (e : ControllerEvent) (hv : validEvent e) :
    parse_command enabledAll (eventKind e) (encodeFrame e) = .ok e := by
  cases e with
  | ButtonEvent ev =>
    rw [show encodeFrame (.ButtonEvent ev)
      = (33 :: commandId .ButtonCommand :: [ev.button.id, ev.state.id])
        ++ [crcOf (33 :: commandId .ButtonCommand :: [ev.button.id, ev.state.id])]
      from rfl]
    rw [show eventKind (.ButtonEvent ev) = .ButtonCommand from rfl]
    rw [parse_command_frame enabledAll .ButtonCommand _ (by rfl)]
    rw [show enabledAll .ButtonCommand = true from rfl, if_pos rfl]
    show (ButtonEvent.try_from [ev.button.id, ev.state.id]).map _ = _
    unfold ButtonEvent.try_from
    rw [if_neg (by simp)]
    rw [show ([ev.button.id, ev.state.id] : List Nat).getD 0 0 = ev.button.id from rfl]
    rw [show ([ev.button.id, ev.state.id] : List Nat).getD 1 0 = ev.state.id from rfl]
    rw [button_from_id_id, state_from_id_id]
    rfl
  | ColorEvent ev =>
    rw [show encodeFrame (.ColorEvent ev)
      = (33 :: commandId .Color :: [ev.red, ev.green, ev.blue])
        ++ [crcOf (33 :: commandId .Color :: [ev.red, ev.green, ev.blue])]
      from rfl]
    rw [show eventKind (.ColorEvent ev) = .Color from rfl]
    rw [parse_command_frame enabledAll .Color _ (by rfl)]
    rw [show enabledAll .Color = true from rfl, if_pos rfl]
    show (ColorEvent.try_from [ev.red, ev.green, ev.blue]).map _ = _
    unfold ColorEvent.try_from
    rw [if_neg (by simp)]
    rfl
  | QuaternionEvent ev =>
    obtain ⟨h1, h2, h3, h4⟩ := hv
    rw [show encodeFrame (.QuaternionEvent ev)
      = (33 :: commandId .Quaternion
          :: (toLE4 ev.x ++ toLE4 ev.y ++ toLE4 ev.z ++ toLE4 ev.w))
        ++ [crcOf (33 :: commandId .Quaternion
          :: (toLE4 ev.x ++ toLE4 ev.y ++ toLE4 ev.z ++ toLE4 ev.w))]
      from rfl]
    rw [show eventKind (.QuaternionEvent ev) = .Quaternion from rfl]
    rw [parse_command_frame enabledAll .Quaternion _ (slices4 ev.x ev.y ev.z ev.w).2.2.2.2]
    rw [show enabledAll .Quaternion = true from rfl, if_pos rfl]
    show (QuaternionEvent.try_from _).map _ = _
    rw [quaternion_decode ev.x ev.y ev.z ev.w h1 h2 h3 h4]
    rfl
  | AccelerometerEvent ev =>
    obtain ⟨h1, h2, h3⟩ := hv
    rw [show encodeFrame (.AccelerometerEvent ev)
      = (33 :: commandId .Accelerometer :: (toLE4 ev.x ++ toLE4 ev.y ++ toLE4 ev.z))
        ++ [crcOf (33 :: commandId .Accelerometer
          :: (toLE4 ev.x ++ toLE4 ev.y ++ toLE4 ev.z))]
      from rfl]
    rw [show eventKind (.AccelerometerEvent ev) = .Accelerometer from rfl]
    rw [parse_command_frame enabledAll .Accelerometer _ (slices3 ev.x ev.y ev.z).2.2.2]
    rw [show enabledAll .Accelerometer = true from rfl, if_pos rfl]
    show (AccelerometerEvent.try_from _).map _ = _
    rw [accelerometer_decode ev.x ev.y ev.z h1 h2 h3]
    rfl
  | GyroEvent ev =>
    obtain ⟨h1, h2, h3⟩ := hv
    rw [show encodeFrame (.GyroEvent ev)
      = (33 :: commandId .Gyro :: (toLE4 ev.x ++ toLE4 ev.y ++ toLE4 ev.z))
        ++ [crcOf (33 :: commandId .Gyro :: (toLE4 ev.x ++ toLE4 ev.y ++ toLE4 ev.z))]
      from rfl]
    rw [show eventKind (.GyroEvent ev) = .Gyro from rfl]
    rw [parse_command_frame enabledAll .Gyro _ (slices3 ev.x ev.y ev.z).2.2.2]
    rw [show enabledAll .Gyro = true from rfl, if_pos rfl]
    show (GyroEvent.try_from _).map _ = _
    rw [gyro_decode ev.x ev.y ev.z h1 h2 h3]
    rfl
  | MagnetometerEvent ev =>
    obtain ⟨h1, h2, h3⟩ := hv
    rw [show encodeFrame (.MagnetometerEvent ev)
      = (33 :: commandId .Magnetometer :: (toLE4 ev.x ++ toLE4 ev.y ++ toLE4 ev.z))
        ++ [crcOf (33 :: commandId .Magnetometer
          :: (toLE4 ev.x ++ toLE4 ev.y ++ toLE4 ev.z))]
      from rfl]
    rw [show eventKind (.MagnetometerEvent ev) = .Magnetometer from rfl]
    rw [parse_command_frame enabledAll .Magnetometer _ (slices3 ev.x ev.y ev.z).2.2.2]
    rw [show enabledAll .Magnetometer = true from rfl, if_pos rfl]
    show (MagnetometerEvent.try_from _).map _ = _
    rw [magnetometer_decode ev.x ev.y ev.z h1 h2 h3]
    rfl
  | LocationEvent ev =>
    obtain ⟨h1, h2, h3⟩ := hv
    rw [show encodeFrame (.LocationEvent ev)
      = (33 :: commandId .Location
          :: (toLE4 ev.latitude ++ toLE4 ev.longitude ++ toLE4 ev.altitude))
        ++ [crcOf (33 :: commandId .Location
          :: (toLE4 ev.latitude ++ toLE4 ev.longitude ++ toLE4 ev.altitude))]
      from rfl]
    rw [show eventKind (.LocationEvent ev) = .Location from rfl]
    rw [parse_command_frame enabledAll .Location _
      (slices3 ev.latitude ev.longitude ev.altitude).2.2.2]
    rw [show enabledAll .Location = true from rfl, if_pos rfl]
    show (LocationEvent.try_from _).map _ = _
    rw [location_decode ev.latitude ev.longitude ev.altitude h1 h2 h3]
    rfl

/-- C6, witness: the round trip at a concrete location event. -/
theorem C6_witness :
    parse_command enabledAll (eventKind (.LocationEvent ⟨1, 2, 3⟩))
      (encodeFrame (.LocationEvent ⟨1, 2, 3⟩)) = .ok (.LocationEvent ⟨1, 2, 3⟩) :=
  C6_roundtrip (.LocationEvent ⟨1, 2, 3⟩) (by refine ⟨?_, ?_, ?_⟩ <;> decide)

/-- C7. If a checksummed region validates against a checksum byte, then
flipping any single bit of any single byte of that region while keeping the
checksum byte makes the validator fail with InvalidChecksum: the byte sum
changes by a power of two below 256, which always changes the calculated
low-byte complement. -/
theorem C7_bitflip_detected (data : List Nat) (c : Nat)
    (hb : ∀ b ∈ data, b < 256) (hok : check_crc data c = .ok ())
    (i k : Nat) (hi : i < data.length) (hk : k < 8) :
    ∃ calculated,
      check_crc (data.set i (data.getD i 0 ^^^ 2 ^ k)) c
        = .error (.InvalidCrc c calculated) := by
  have hd : data.getD i 0 < 256 := by
    rw [List.getD_eq_getElem data 0 hi]
    exact hb _ (List.getElem_mem hi)
  have h2k : (2 : Nat) ^ k < 256 := by
    calc (2 : Nat) ^ k ≤ 2 ^ 7 := Nat.pow_le_pow_right (by omega) (by omega)
    _ < 256 := by omega
  have hd2 : data.getD i 0 ^^^ 2 ^ k < 256 := by
    have := Nat.xor_lt_two_pow (n := 8) (by simpa using hd) (by simpa using h2k)
    simpa using this
  have hne : data.getD i 0 ^^^ 2 ^ k ≠ data.getD i 0 := by
    intro hEq
    have hzero : (2 : Nat) ^ k = 0 := by
      calc (2 : Nat) ^ k = 2 ^ k ^^^ data.getD i 0 ^^^ data.getD i 0 :=
            (Nat.xor_cancel_right _ _).symm
      _ = data.getD i 0 ^^^ 2 ^ k ^^^ data.getD i 0 := by rw [Nat.xor_comm (2 ^ k)]
      _ = data.getD i 0 ^^^ data.getD i 0 := by rw [hEq]
      _ = 0 := Nat.xor_self _
    have hpos : 0 < (2 : Nat) ^ k := Nat.pow_pos (by omega)
    omega
  have hsum := sum_set_add data i hi (data.getD i 0 ^^^ 2 ^ k)
  rw [check_crc_eq] at hok
  have hc : c = (65535 - data.sum % 65536) % 256 := by
    by_contra hcon
    rw [if_neg hcon] at hok
    exact Except.noConfusion hok
  refine ⟨(65535 - (data.set i (data.getD i 0 ^^^ 2 ^ k)).sum % 65536) % 256, ?_⟩
  rw [check_crc_eq, if_neg ?_]
  rw [hc]
  intro hEq2
  omega

/-- C7, witness: flipping the lowest bit of the first digit byte of the
frame body of the checksum test of the crate invalidates the checksum. -/
theorem C7_witness :
    ∃ calculated,
      check_crc (([33, 66, 49, 49] : List Nat).set 2
          (([33, 66, 49, 49] : List Nat).getD 2 0 ^^^ 2 ^ 0)) 58
        = .error (.InvalidCrc 58 calculated) :=
  C7_bitflip_detected [33, 66, 49, 49] 58 (by decide) (by rfl) 2 0 (by decide) (by decide)

/-- C8. The button payload decoder: a payload whose length is not 2 reports
InvalidLength 2 actual; byte 0 maps the ASCII digits 1 to 8 to the eight
buttons and anything else to UnknownButton; byte 1 maps ASCII 0 to Released
and ASCII 1 to Pressed and anything else to UnknownButtonState; and on a
two-byte payload the decoder is exactly the composition of the two maps,
checking the button byte first. -/
theorem C8_button_decoding :
    (∀ input : List Nat, input.length ≠ 2 →
        ButtonEvent.try_from input = .error (.InvalidLength 2 input.length))
    ∧ Button.from_id 49 = .ok .Button1 ∧ Button.from_id 50 = .ok .Button2
    ∧ Button.from_id 51 = .ok .Button3 ∧ Button.from_id 52 = .ok .Button4
    ∧ Button.from_id 53 = .ok .Up ∧ Button.from_id 54 = .ok .Down
    ∧ Button.from_id 55 = .ok .Left ∧ Button.from_id 56 = .ok .Right
    ∧ (∀ b : Nat, ¬(49 ≤ b ∧ b ≤ 56) →
        Button.from_id b = .error (.UnknownButton b))
    ∧ ButtonState.from_id 48 = .ok .Released ∧ ButtonState.from_id 49 = .ok .Pressed
    ∧ (∀ b : Nat, b ≠ 48 → b ≠ 49 →
        ButtonState.from_id b = .error (.UnknownButtonState b))
    ∧ (∀ b0 b1 : Nat, ButtonEvent.try_from [b0, b1] =
        match Button.from_id b0 with
        | .error e => .error (.ButtonParseError e)
        | .ok btn =>
          match ButtonState.from_id b1 with
          | .error e => .error (.ButtonParseError e)
          | .ok st => .ok ⟨btn, st⟩) := by
  refine ⟨?_, rfl, rfl, rfl, rfl, rfl, rfl, rfl, rfl, ?_, rfl, rfl, ?_, ?_⟩
  · intro input h
    unfold ButtonEvent.try_from
    rw [if_pos h]
  · intro b h
    unfold Button.from_id
    have hall : b ≠ 49 ∧ b ≠ 50 ∧ b ≠ 51 ∧ b ≠ 52 ∧ b ≠ 53 ∧ b ≠ 54 ∧ b ≠ 55 ∧ b ≠ 56 := by
      omega
    obtain ⟨n1, n2, n3, n4, n5, n6, n7, n8⟩ := hall
    rw [if_neg n1, if_neg n2, if_neg n3, if_neg n4, if_neg n5, if_neg n6, if_neg n7,
      if_neg n8]
  · intro b h1 h2
    unfold ButtonState.from_id
    rw [if_neg h1, if_neg h2]
  · intro b0 b1
    rfl

/-- C8, witness: a one-byte payload, an out-of-range button byte, and an
out-of-range state byte. -/
theorem C8_witness :
    ButtonEvent.try_from [49] = .error (.InvalidLength 2 1)
    ∧ Button.from_id 48 = .error (.UnknownButton 48)
    ∧ ButtonState.from_id 51 = .error (.UnknownButtonState 51) := by
  obtain ⟨h1, _, _, _, _, _, _, _, _, h2, _, _, h3, _⟩ := C8_button_decoding
  exact ⟨h1 [49] (by decide), h2 48 (by decide), h3 51 (by decide) (by decide)⟩

/-- C9. The scanner consumes the byte after a marker as the command id and
resumes seeking at the position after it: a non-marker byte in seek state is
skipped; a marker followed by a command byte yields one result for the
suffix at the marker and then continues just past the command byte; in
particular two adjacent markers yield Err(UnknownEvent(Some 33)) for the
first one, and the scan continues after the second marker, so a well-formed
frame starting at the second marker is never decoded, as the concrete
two-marker buffer followed by the valid frame bytes B11 shows. -/
theorem C9_marker_consumed_as_command :
    (∀ (enabled : ControllerDataPackageType → Bool) (b : Nat) (rest : List Nat),
      b ≠ 33 → parse enabled (b :: rest) = parse enabled rest)
    ∧ (∀ (enabled : ControllerDataPackageType → Bool) (c : Nat) (rest : List Nat),
      parse enabled (33 :: c :: rest) =
        extract_and_parse_command enabled (33 :: c :: rest) :: parse enabled rest)
    ∧ (∀ (enabled : ControllerDataPackageType → Bool) (rest : List Nat),
      parse enabled (33 :: 33 :: rest) =
        .error (.UnknownEvent (some 33)) :: parse enabled rest)
    ∧ parse enabledAll [33, 33, 66, 49, 49, 58] = [.error (.UnknownEvent (some 33))] := by
  refine ⟨parse_cons_skip, parse_cons_marker, ?_, by rfl⟩
  intro enabled rest
  rw [parse_cons_marker]
  rfl

/-- C9, witness: the skip equation applied at a null byte ahead of a valid
button frame. -/
theorem C9_witness :
    parse enabledAll (0 :: [33, 66, 49, 49, 58])
      = parse enabledAll [33, 66, 49, 49, 58] :=
  C9_marker_consumed_as_command.1 enabledAll 0 [33, 66, 49, 49, 58] (by decide)

/-- Guarded indexing within bounds returns the plain lookup. -/
lemma getChecked_eq (l : List Nat) (i : Nat) (h : i < l.length) :
    getChecked l i = some (l.getD i 0) := by
  unfold getChecked
  rw [dif_pos h, List.get_eq_getElem, List.getD_eq_getElem l 0 h]

/-- Guarded subtraction without underflow returns the plain difference. -/
lemma subChecked_eq (a b : Nat) (h : b ≤ a) : subChecked a b = some (a - b) := by
  unfold subChecked
  rw [if_pos h]

/-- Guarded suffix slice within bounds returns the plain drop. -/
lemma sliceFrom_eq (l : List Nat) (a : Nat) (h : a ≤ l.length) :
    sliceFrom l a = some (l.drop a) := by
  unfold sliceFrom
  rw [if_pos h]

/-- Guarded inclusive-end slice within bounds returns the plain take. -/
lemma sliceToIncl_eq (l : List Nat) (e : Nat) (h : e < l.length) :
    sliceToIncl l e = some (l.take (e + 1)) := by
  unfold sliceToIncl
  rw [if_pos h]

/-- Guarded two-ended inclusive slice within bounds returns drop then take. -/
lemma sliceIncl_eq (l : List Nat) (a e : Nat) (h : a ≤ e + 1 ∧ e < l.length) :
    sliceIncl l a e = some ((l.drop a).take (e + 1 - a)) := by
  unfold sliceIncl
  rw [if_pos h]

/-- Guarded two-ended exclusive slice within bounds returns drop then take. -/
lemma sliceEx_eq (l : List Nat) (a b : Nat) (h : a ≤ b ∧ b ≤ l.length) :
    sliceEx l a b = some ((l.drop a).take (b - a)) := by
  unfold sliceEx
  rw [if_pos h]

/-- The guarded checksum fold succeeds and computes the plain sum whenever
the final sum stays below 65536. -/
lemma foldlM_addU16 (l : List Nat) : ∀ s : Nat, s + l.sum < 65536 →
    l.foldlM addU16Checked s = some (s + l.sum) := by
  induction l with
  | nil => intro s h; simp
  | cons b t ih =>
    intro s h
    have hs : s + b < 65536 := by simp [List.sum_cons] at h; omega
    rw [List.foldlM_cons]
    rw [show addU16Checked s b = some (s + b) from by unfold addU16Checked; rw [if_pos hs]]
    simp only [Option.bind_eq_bind, Option.some_bind]
    rw [ih (s + b) (by simp [List.sum_cons] at h; omega)]
    simp [List.sum_cons]
    omega

/-- A list of bytes sums to at most 255 per element. -/
lemma sum_le_bytes (l : List Nat) (h : ∀ b ∈ l, b < 256) :
    l.sum ≤ 255 * l.length := by
  induction l with
  | nil => simp
  | cons b t ih =>
    simp only [List.sum_cons, List.length_cons]
    have hb : b < 256 := h b (List.mem_cons_self b t)
    have ht := ih (fun x hx => h x (List.mem_cons_of_mem b hx))
    have : 255 * (t.length + 1) = 255 * t.length + 255 := by ring
    omega

/-- On a checksummed region of at most 18 bytes the guarded u16 accumulation
cannot overflow, so the checked checksum equals the plain one (18 bytes is
the largest region check_crc is ever called on: a quaternion frame minus its
checksum byte). -/
lemma check_crcChecked_eq (data : List Nat) (crc : Nat) (hlen : data.length ≤ 18)
    (hb : ∀ b ∈ data, b < 256) :
    check_crcChecked data crc = some (check_crc data crc) := by
  have hsum : data.sum < 65536 := by
    have h1 := sum_le_bytes data hb
    have h2 : 255 * data.length ≤ 255 * 18 := Nat.mul_le_mul_left 255 hlen
    omega
  unfold check_crcChecked
  rw [foldlM_addU16 data 0 (by omega)]
  simp only [Option.bind_eq_bind, Option.some_bind]
  rw [check_crc_eq, Nat.mod_eq_of_lt hsum, Nat.zero_add]
  rfl

/-- The checked button decoder never hits a guard. -/
lemma button_checked_eq (input : List Nat) :
    ButtonEvent.try_fromChecked input = some (ButtonEvent.try_from input) := by
  unfold ButtonEvent.try_fromChecked ButtonEvent.try_from
  split
  · rfl
  · rename_i h
    have h2 : input.length = 2 := by omega
    rw [getChecked_eq input 0 (by omega), getChecked_eq input 1 (by omega)]
    simp only [Option.bind_eq_bind, Option.some_bind]
    rfl

/-- The checked color decoder never hits a guard. -/
lemma color_checked_eq (input : List Nat) :
    ColorEvent.try_fromChecked input = some (ColorEvent.try_from input) := by
  unfold ColorEvent.try_fromChecked ColorEvent.try_from
  split
  · rfl
  · rename_i h
    have h3 : input.length = 3 := by omega
    rw [getChecked_eq input 0 (by omega), getChecked_eq input 1 (by omega),
      getChecked_eq input 2 (by omega)]
    simp only [Option.bind_eq_bind, Option.some_bind]
    rfl

/-- The checked quaternion decoder never hits a guard. -/
lemma quaternion_checked_eq (input : List Nat) :
    QuaternionEvent.try_fromChecked input = some (QuaternionEvent.try_from input) := by
  unfold QuaternionEvent.try_fromChecked QuaternionEvent.try_from
  split
  · rfl
  · rename_i h
    have h16 : input.length = 16 := by simp [BYTES_PER_FLOAT] at h; omega
    rw [sliceEx_eq input 0 4 (by omega), sliceEx_eq input 4 8 (by omega),
      sliceEx_eq input 8 12 (by omega), sliceEx_eq input 12 16 (by omega)]
    simp only [Option.bind_eq_bind, Option.some_bind]
    rfl

/-- The checked accelerometer decoder never hits a guard. -/
lemma accelerometer_checked_eq (input : List Nat) :
    AccelerometerEvent.try_fromChecked input
      = some (AccelerometerEvent.try_from input) := by
  unfold AccelerometerEvent.try_fromChecked AccelerometerEvent.try_from
  split
  · rfl
  · rename_i h
    have h12 : input.length = 12 := by simp [BYTES_PER_FLOAT] at h; omega
    rw [sliceEx_eq input 0 4 (by omega), sliceEx_eq input 4 8 (by omega),
      sliceEx_eq input 8 12 (by omega)]
    simp only [Option.bind_eq_bind, Option.some_bind]
    rfl

/-- The checked gyro decoder never hits a guard. -/
lemma gyro_checked_eq (input : List Nat) :
    GyroEvent.try_fromChecked input = some (GyroEvent.try_from input) := by
  unfold GyroEvent.try_fromChecked GyroEvent.try_from
  split
  · rfl
  · rename_i h
    have h12 : input.length = 12 := by simp [BYTES_PER_FLOAT] at h; omega
    rw [sliceEx_eq input 0 4 (by omega), sliceEx_eq input 4 8 (by omega),
      sliceEx_eq input 8 12 (by omega)]
    simp only [Option.bind_eq_bind, Option.some_bind]
    rfl

/-- The checked magnetometer decoder never hits a guard. -/
lemma magnetometer_checked_eq (input : List Nat) :
    MagnetometerEvent.try_fromChecked input
      = some (MagnetometerEvent.try_from input) := by
  unfold MagnetometerEvent.try_fromChecked MagnetometerEvent.try_from
  split
  · rfl
  · rename_i h
    have h12 : input.length = 12 := by simp [BYTES_PER_FLOAT] at h; omega
    rw [sliceEx_eq input 0 4 (by omega), sliceEx_eq input 4 8 (by omega),
      sliceEx_eq input 8 12 (by omega)]
    simp only [Option.bind_eq_bind, Option.some_bind]
    rfl

/-- The checked location decoder never hits a guard. -/
lemma location_checked_eq (input : List Nat) :
    LocationEvent.try_fromChecked input = some (LocationEvent.try_from input) := by
  unfold LocationEvent.try_fromChecked LocationEvent.try_from
  split
  · rfl
  · rename_i h
    have h12 : input.length = 12 := by simp [BYTES_PER_FLOAT] at h; omega
    rw [sliceEx_eq input 0 4 (by omega), sliceEx_eq input 4 8 (by omega),
      sliceEx_eq input 8 12 (by omega)]
    simp only [Option.bind_eq_bind, Option.some_bind]
    rfl

/-- The checked parse_command never hits a guard: all its subtractions,
index accesses and slices happen after the length check, and the checksum is
computed over at most data_len + 2 bytes, at most 18. -/
lemma parse_command_checked_eq (enabled : ControllerDataPackageType → Bool)
    (cmd : ControllerDataPackageType) (input : List Nat)
    (hb : ∀ b ∈ input, b < 256) :
    parse_commandChecked enabled cmd input = some (parse_command enabled cmd input) := by
  have hdl : 2 ≤ cmd.data_len ∧ cmd.data_len ≤ 16 := by
    cases cmd <;> simp [ControllerDataPackageType.data_len, BYTES_PER_FLOAT]
  simp only [parse_commandChecked, parse_command]
  split
  · rfl
  · rename_i h
    have hlen : input.length = cmd.data_len + 3 := by omega
    rw [subChecked_eq input.length 2 (by omega)]
    simp only [Option.bind_eq_bind, Option.some_bind]
    rw [subChecked_eq input.length 1 (by omega)]
    simp only [Option.bind_eq_bind, Option.some_bind]
    rw [getChecked_eq input (input.length - 1) (by omega)]
    simp only [Option.bind_eq_bind, Option.some_bind]
    rw [sliceToIncl_eq input (input.length - 2) (by omega)]
    simp only [Option.bind_eq_bind, Option.some_bind]
    rw [check_crcChecked_eq (input.take (input.length - 2 + 1))
      (input.getD (input.length - 1) 0)
      (by rw [List.length_take]; omega)
      (fun b hbm => hb b (List.mem_of_mem_take hbm))]
    simp only [Option.bind_eq_bind, Option.some_bind]
    cases hcrc : check_crc (input.take (input.length - 2 + 1))
        (input.getD (input.length - 1) 0) with
    | error e => rfl
    | ok u =>
      cases u
      rw [sliceIncl_eq input 2 (input.length - 2) (by omega)]
      simp only [Option.bind_eq_bind, Option.some_bind]
      split
      all_goals split
      all_goals
        first
        | rfl
        | simp only [button_checked_eq, color_checked_eq, quaternion_checked_eq,
            accelerometer_checked_eq, gyro_checked_eq, magnetometer_checked_eq,
            location_checked_eq, Option.map_some']

/-- The checked extract_and_parse_command never hits a guard when the suffix
it is handed holds the marker byte and at least one more byte. -/
lemma extract_checked_eq (enabled : ControllerDataPackageType → Bool)
    (input : List Nat) (h2 : 2 ≤ input.length) (hb : ∀ b ∈ input, b < 256) :
    extract_and_parse_commandChecked enabled input
      = some (extract_and_parse_command enabled input) := by
  unfold extract_and_parse_commandChecked extract_and_parse_command
  rw [getChecked_eq input 1 (by omega)]
  simp only [Option.bind_eq_bind, Option.some_bind]
  cases hcmd : ControllerDataPackageType.try_from (input.getD 1 0) with
  | error e => rfl
  | ok command =>
    rw [subChecked_eq input.length 1 (by omega)]
    simp only [Option.bind_eq_bind, Option.some_bind]
    rw [sliceToIncl_eq input (min (command.data_len + 2) (input.length - 1)) (by omega)]
    simp only [Option.bind_eq_bind, Option.some_bind]
    exact parse_command_checked_eq enabled command _
      (fun b hbm => hb b (List.mem_of_mem_take hbm))

/-- The checked scanner never hits a guard: in state ParseCommand the
position is at least 1, so looking one byte back never underflows, and the
suffix handed to extraction always has the marker and the byte under the
cursor. -/
lemma parseFrom_checked_eq (enabled : ControllerDataPackageType → Bool)
    (input : List Nat) (hb : ∀ b ∈ input, b < 256) :
    ∀ (fuel : Nat) (st : ParserState) (pos : Nat),
    (st = ParserState.ParseCommand → 1 ≤ pos) →
    parseFromChecked enabled input st pos fuel
      = some (parseFrom enabled input st pos fuel) := by
  intro fuel
  induction fuel with
  | zero => intro st pos _; rfl
  | succ fuel ih =>
    intro st pos hst
    simp only [parseFromChecked, parseFrom]
    split
    · rename_i hpos
      cases st with
      | SeekStart =>
        rw [getChecked_eq input pos hpos]
        simp only [Option.bind_eq_bind, Option.some_bind]
        exact ih _ (pos + 1) (fun _ => by omega)
      | ParseCommand =>
        have hp1 := hst rfl
        rw [subChecked_eq pos 1 hp1]
        simp only [Option.bind_eq_bind, Option.some_bind]
        rw [sliceFrom_eq input (pos - 1) (by omega)]
        simp only [Option.bind_eq_bind, Option.some_bind]
        rw [extract_checked_eq enabled (input.drop (pos - 1))
          (by rw [List.length_drop]; omega)
          (fun b hbm => hb b (List.mem_of_mem_drop hbm))]
        simp only [Option.bind_eq_bind, Option.some_bind]
        rw [ih .SeekStart (pos + 1) (fun h => by omega)]
        simp only [Option.bind_eq_bind, Option.some_bind]
        rfl
    · rfl

/-- C10. The parse pipeline is total on byte slices: running the model in
which every Rust operation that can panic is guarded (indexing and slicing
out of range, usize subtraction underflow, u16 checksum-accumulator
overflow) produces some result on every input of bytes, equal to the plain
model; in particular the position looked back at in ParseCommand state is
never negative, every slice index is in bounds, parse_command only indexes
after its length check, and the checksum accumulation never exceeds 16 bits
because it only ever covers at most 18 bytes. -/
theorem C10_no_panic (enabled : ControllerDataPackageType → Bool)
    (input : List Nat) (hb : ∀ b ∈ input, b < 256) :
    parseChecked enabled input = some (parse enabled input) := by
  unfold parseChecked parse
  exact parseFrom_checked_eq enabled input hb input.length .SeekStart 0
    (fun h => ParserState.noConfusion h)

/-- C10, witness at a buffer holding one valid button frame. -/
theorem C10_witness :
    parseChecked enabledAll [33, 66, 49, 49, 58]
      = some (parse enabledAll [33, 66, 49, 49, 58]) :=
  C10_no_panic enabledAll [33, 66, 49, 49, 58] (by decide)

end Bluefruit
